import Mathlib

/-!
Verification of `sailfish/converter.py`: the `CoordinateConverter` between
physical and lattice-Boltzmann (LB) coordinate systems, and the
`UnitConverter` for physical/lattice unit scaling.

Modelling conventions: Python floats are modelled as exact rationals (`ℚ`);
Python operations that raise (`KeyError` on a missing config key,
`ZeroDivisionError`, `TypeError` on `None` arithmetic, `AssertionError`)
are modelled as `Option`-valued functions returning `none`.
-/

namespace Sailfish

/-- The natural-order axis labels x, y, z. -/
def axisChar : Fin 3 → Char
  | 0 => 'x'
  | 1 => 'y'
  | 2 => 'z'

/-- Configuration dictionary consumed by `CoordinateConverter.__init__`.
`padding = none` / `cuts = none` model the corresponding key being absent
from the dictionary. -/
structure Config where
  axes : List Char
  bounding_box : Fin 3 → ℚ × ℚ
  size : Fin 3 → ℤ
  padding : Option (Fin 6 → ℤ)
  cuts : Option (Fin 3 → ℤ × ℤ)

/-- Natural axis index `i` mapped to lattice (memory) order: `lb_i = 2 - i`. -/
def finRev (i : Fin 3) : Fin 3 := ⟨2 - i.val, by omega⟩

/-- Padding index `2*i + k` for natural axis `i` and side `k` (0 = front, 1 = back). -/
def pIdx (i : Fin 3) (k : Fin 2) : Fin 6 :=
  ⟨2 * i.val + k.val, by have h1 := i.isLt; have h2 := k.isLt; omega⟩

/-- Front cut for natural axis `i`, zero when the `cuts` key is absent. -/
def cutFwd (cfg : Config) (i : Fin 3) : ℤ :=
  match cfg.cuts with
  | some cu => (cu i).1
  | none => 0

/-- Back cut for natural axis `i`, zero when the `cuts` key is absent. -/
def cutBack (cfg : Config) (i : Fin 3) : ℤ :=
  match cfg.cuts with
  | some cu => (cu i).2
  | none => 0

/-- The per-natural-axis lattice size used as the `dx` denominator in
`__init__`: `size[2-i] - padding[2i] - padding[2i+1]`, with both cuts added
back when the `cuts` key is present. -/
def natSize (cfg : Config) (pad : Fin 6 → ℤ) (i : Fin 3) : ℤ :=
  let s := cfg.size (finRev i) - pad (pIdx i 0) - pad (pIdx i 1)
  match cfg.cuts with
  | some cu => s + (cu i).1 + (cu i).2
  | none => s

/-- The per-natural-axis offset computed in `__init__`: `-padding[2i]`,
plus the front cut when the `cuts` key is present. -/
def natOffset (cfg : Config) (pad : Fin 6 → ℤ) (i : Fin 3) : ℤ :=
  let o := -pad (pIdx i 0)
  match cfg.cuts with
  | some cu => o + (cu i).1
  | none => o

/-- State of a constructed `CoordinateConverter`: inverse axis permutation,
and per-natural-axis cell size, offset and physical minimum. -/
structure CoordinateConverter where
  axes : Fin 3 → ℕ
  dx : Fin 3 → ℚ
  offset : Fin 3 → ℤ
  phys_min_x : Fin 3 → ℚ
  deriving DecidableEq

instance : Inhabited CoordinateConverter :=
  ⟨⟨fun _ => 0, fun _ => 0, fun _ => 0, fun _ => 0⟩⟩

/-- The state stored by `CoordinateConverter.__init__` when every per-axis
size is nonzero: `axes` from `ax.index(...)`, and per natural axis the cell
size `dx`, the `offset`, and the physical minimum `phys_min_x`. -/
def mkConv (cfg : Config) (pad : Fin 6 → ℤ) : CoordinateConverter where
  axes := fun i => cfg.axes.indexOf (axisChar i)
  dx := fun i =>
    ((cfg.bounding_box i).2 - (cfg.bounding_box i).1) /
      ((natSize cfg pad i : ℤ) : ℚ)
  offset := fun i => natOffset cfg pad i
  phys_min_x := fun i => (cfg.bounding_box i).1

theorem mkConv_axes (cfg : Config) (pad : Fin 6 → ℤ) (i : Fin 3) :
    (mkConv cfg pad).axes i = cfg.axes.indexOf (axisChar i) := rfl

theorem mkConv_dx (cfg : Config) (pad : Fin 6 → ℤ) (i : Fin 3) :
    (mkConv cfg pad).dx i =
      ((cfg.bounding_box i).2 - (cfg.bounding_box i).1) /
        ((natSize cfg pad i : ℤ) : ℚ) := rfl

theorem mkConv_offset (cfg : Config) (pad : Fin 6 → ℤ) (i : Fin 3) :
    (mkConv cfg pad).offset i = natOffset cfg pad i := rfl

theorem mkConv_phys_min_x (cfg : Config) (pad : Fin 6 → ℤ) (i : Fin 3) :
    (mkConv cfg pad).phys_min_x i = (cfg.bounding_box i).1 := rfl

/-- `CoordinateConverter.__init__`.  Fails (`none`) when the `padding` key is
absent (Python `KeyError` at `config['padding'][2*i]`) or some per-axis size
is zero (Python `ZeroDivisionError` at `dx = .../size`). -/
def CoordinateConverter.init (cfg : Config) : Option CoordinateConverter :=
  match cfg.padding with
  | none => none
  | some pad =>
    if ∀ i : Fin 3, natSize cfg pad i ≠ 0 then some (mkConv cfg pad) else none

theorem init_eq_some (cfg : Config) (pad : Fin 6 → ℤ)
    (hpad : cfg.padding = some pad) (h : ∀ i : Fin 3, natSize cfg pad i ≠ 0) :
    CoordinateConverter.init cfg = some (mkConv cfg pad) := by
  unfold CoordinateConverter.init
  rw [hpad]
  exact if_pos h

/-- Assignment `lb_pos[j] = v` on a 3-element coordinate vector. -/
def setAt (f : Fin 3 → ℚ) (j : ℕ) (v : ℚ) : Fin 3 → ℚ :=
  fun k => if k.val = j then v else f k

/-- The loop body of `to_lb` before optional rounding:
`lb_pos[2 - axes[i]] = (phys_pos[i] - phys_min_x[i]) / dx[i] - offset[i]`,
run for i = 0, 1, 2 on an all-zero initial vector. -/
def CoordinateConverter.to_lb_core (c : CoordinateConverter) (phys : Fin 3 → ℚ) :
    Fin 3 → ℚ :=
  let step : (Fin 3 → ℚ) → Fin 3 → (Fin 3 → ℚ) := fun f i =>
    setAt f (2 - c.axes i)
      ((phys i - c.phys_min_x i) / c.dx i - ((c.offset i : ℤ) : ℚ))
  step (step (step (fun _ => 0) 0) 1) 2

/-- `to_lb(phys_pos, round_)`: physical (natural-order) coordinates to
lattice-order coordinates, optionally rounded to the nearest integer. -/
def CoordinateConverter.to_lb (c : CoordinateConverter) (phys : Fin 3 → ℚ)
    (round_ : Bool) : Fin 3 → ℚ :=
  if round_ then fun i => ((round (c.to_lb_core phys i) : ℤ) : ℚ)
  else c.to_lb_core phys

/-- `self.axes.index(v)`: position of value `v` in the stored axes list
(first match wins, as for Python `list.index`). -/
def CoordinateConverter.axesInv (c : CoordinateConverter) (v : ℕ) : Fin 3 :=
  if c.axes 0 = v then 0 else if c.axes 1 = v then 1 else 2

/-- `from_lb(lb_pos)`: lattice-order coordinates back to physical
(natural-order) coordinates:
`phys_pos[j] = dx[j] * (lb_pos[i] + offset[j]) + phys_min_x[j]` where
`j = axes.index(2 - i)`, run for i = 0, 1, 2. -/
def CoordinateConverter.from_lb (c : CoordinateConverter) (lb : Fin 3 → ℚ) :
    Fin 3 → ℚ :=
  let step : (Fin 3 → ℚ) → Fin 3 → (Fin 3 → ℚ) := fun f i =>
    let j := c.axesInv (2 - i.val)
    setAt f j.val (c.dx j * (lb i + ((c.offset j : ℤ) : ℚ)) + c.phys_min_x j)
  step (step (step (fun _ => 0) 0) 1) 2

/-- `axes` is a permutation of the string `"xyz"`. -/
def validAxes (l : List Char) : Prop :=
  l ∈ [['x', 'y', 'z'], ['x', 'z', 'y'], ['y', 'x', 'z'],
       ['y', 'z', 'x'], ['z', 'x', 'y'], ['z', 'y', 'x']]

instance (l : List Char) : Decidable (validAxes l) := by
  unfold validAxes; infer_instance

/-- The all-zero padding vector. -/
def zeroPad : Fin 6 → ℤ := fun _ => 0

/-- The example configuration of the spec: `axes="xyz"`, `size=[12,10,8]`
(lattice order z,y,x), zero padding, no cuts,
`bounding_box=[(0,1),(0,2),(0,3)]`. -/
def exampleConfig : Config where
  axes := ['x', 'y', 'z']
  bounding_box := fun i =>
    match i with
    | 0 => (0, 1)
    | 1 => (0, 2)
    | 2 => (0, 3)
  size := fun i =>
    match i with
    | 0 => 12
    | 1 => 10
    | 2 => 8
  padding := some zeroPad
  cuts := none

/-- The example physical position `[0.5, 1.0, 1.5]`. -/
def examplePos : Fin 3 → ℚ := fun i =>
  match i with
  | 0 => 1 / 2
  | 1 => 1
  | 2 => 3 / 2

/-- The converter built from `exampleConfig`. -/
def exampleConv : CoordinateConverter := mkConv exampleConfig zeroPad

theorem exampleConv_init :
    CoordinateConverter.init exampleConfig = some exampleConv :=
  init_eq_some exampleConfig zeroPad rfl (by decide)

theorem exampleConv_dx0 : exampleConv.dx 0 = 1 / 8 := by
  rw [exampleConv, mkConv_dx,
    (by decide : natSize exampleConfig zeroPad 0 = 8),
    (by rfl : exampleConfig.bounding_box 0 = (0, 1))]
  norm_num

theorem exampleConv_dx1 : exampleConv.dx 1 = 1 / 5 := by
  rw [exampleConv, mkConv_dx,
    (by decide : natSize exampleConfig zeroPad 1 = 10),
    (by rfl : exampleConfig.bounding_box 1 = (0, 2))]
  norm_num

theorem exampleConv_dx2 : exampleConv.dx 2 = 1 / 4 := by
  rw [exampleConv, mkConv_dx,
    (by decide : natSize exampleConfig zeroPad 2 = 12),
    (by rfl : exampleConfig.bounding_box 2 = (0, 3))]
  norm_num

theorem exampleConv_core :
    exampleConv.to_lb_core examplePos = fun k =>
      if k.val = 0 then 6 else if k.val = 1 then 5 else 4 := by
  funext k
  have h0 : exampleConv.axes 0 = 0 := by decide
  have h1 : exampleConv.axes 1 = 1 := by decide
  have h2 : exampleConv.axes 2 = 2 := by decide
  have ho : ∀ i, exampleConv.offset i = 0 := by decide
  have hm : ∀ i, exampleConv.phys_min_x i = 0 := by intro i; fin_cases i <;> rfl
  have hp0 : examplePos 0 = 1 / 2 := rfl
  have hp1 : examplePos 1 = 1 := rfl
  have hp2 : examplePos 2 = 3 / 2 := rfl
  simp only [CoordinateConverter.to_lb_core, setAt, h0, h1, h2, ho, hm,
    hp0, hp1, hp2, exampleConv_dx0, exampleConv_dx1, exampleConv_dx2]
  fin_cases k <;> norm_num

/-- C1: on the example configuration (axes "xyz", size [12,10,8] in lattice
order, zero padding, no cuts, bounding box [(0,1),(0,2),(0,3)]), construction
succeeds with per-natural-axis cell sizes dx = [0.125, 0.2, 0.25], and
`to_lb([0.5, 1.0, 1.5])` with rounding returns the lattice-order
coordinates [6, 5, 4]. -/
theorem C1_example_scenario :
    ∃ c, CoordinateConverter.init exampleConfig = some c ∧
      c.dx 0 = 0.125 ∧ c.dx 1 = 0.2 ∧ c.dx 2 = 0.25 ∧
      c.to_lb examplePos true 0 = 6 ∧
      c.to_lb examplePos true 1 = 5 ∧
      c.to_lb examplePos true 2 = 4 := by
  refine ⟨exampleConv, exampleConv_init, ?_, ?_, ?_, ?_, ?_, ?_⟩
  · rw [exampleConv_dx0]; norm_num
  · rw [exampleConv_dx1]; norm_num
  · rw [exampleConv_dx2]; norm_num
  all_goals
    simp only [CoordinateConverter.to_lb, if_pos, exampleConv_core]
    norm_num [round_eq]

theorem init_inv (cfg : Config) (c : CoordinateConverter)
    (hinit : CoordinateConverter.init cfg = some c) :
    ∃ pad, cfg.padding = some pad ∧ (∀ i : Fin 3, natSize cfg pad i ≠ 0) ∧
      c = mkConv cfg pad := by
  unfold CoordinateConverter.init at hinit
  cases hp : cfg.padding with
  | none =>
    rw [hp] at hinit
    exact Option.noConfusion hinit
  | some pad =>
    rw [hp] at hinit
    have hinit2 : (if ∀ i : Fin 3, natSize cfg pad i ≠ 0 then
        some (mkConv cfg pad) else none) = some c := hinit
    by_cases h : ∀ i : Fin 3, natSize cfg pad i ≠ 0
    · rw [if_pos h] at hinit2
      exact ⟨pad, rfl, h, (Option.some.inj hinit2).symm⟩
    · rw [if_neg h] at hinit2
      exact Option.noConfusion hinit2

theorem from_lb_to_lb (c : CoordinateConverter) (p : Fin 3 → ℚ)
    (hax : (c.axes 0, c.axes 1, c.axes 2) ∈
      ([(0, 1, 2), (0, 2, 1), (1, 0, 2), (1, 2, 0), (2, 0, 1), (2, 1, 0)] :
        List (ℕ × ℕ × ℕ)))
    (hdx : ∀ j, c.dx j = 0 → p j = c.phys_min_x j) :
    c.from_lb (c.to_lb p false) = p := by
  have key : ∀ j : Fin 3,
      c.dx j * ((p j - c.phys_min_x j) / c.dx j) + c.phys_min_x j = p j := by
    intro j
    by_cases h : c.dx j = 0
    · rw [h, zero_mul, zero_add, hdx j h]
    · rw [mul_comm, div_mul_cancel₀ _ h, sub_add_cancel]
  show c.from_lb (c.to_lb_core p) = p
  simp only [List.mem_cons, List.not_mem_nil, or_false] at hax
  rcases hax with h | h | h | h | h | h <;>
    (rw [Prod.mk.injEq, Prod.mk.injEq] at h
     obtain ⟨h0, h1, h2⟩ := h
     funext k
     fin_cases k <;>
       simp [CoordinateConverter.from_lb, CoordinateConverter.axesInv,
         CoordinateConverter.to_lb_core, setAt, h0, h1, h2] <;>
       exact key _)

theorem mkConv_axes_mem (cfg : Config) (pad : Fin 6 → ℤ) (hax : validAxes cfg.axes) :
    ((mkConv cfg pad).axes 0, (mkConv cfg pad).axes 1, (mkConv cfg pad).axes 2) ∈
      ([(0, 1, 2), (0, 2, 1), (1, 0, 2), (1, 2, 0), (2, 0, 1), (2, 1, 0)] :
        List (ℕ × ℕ × ℕ)) := by
  unfold validAxes at hax
  simp only [List.mem_cons, List.not_mem_nil, or_false] at hax
  rcases hax with h | h | h | h | h | h <;>
    (simp only [mkConv_axes, h]; decide)

/-- C2: for every configuration whose `axes` is a permutation of "xyz" on
which construction succeeds (hence all per-axis sizes are nonzero), and every
physical position inside the bounding box, `from_lb (to_lb p, round=False)`
recovers `p` exactly (floats are modelled as exact rationals). -/
theorem C2_roundtrip_from_to (cfg : Config) (c : CoordinateConverter)
    (hax : validAxes cfg.axes)
    (hinit : CoordinateConverter.init cfg = some c)
    (p : Fin 3 → ℚ)
    (hin : ∀ i, (cfg.bounding_box i).1 ≤ p i ∧ p i ≤ (cfg.bounding_box i).2) :
    c.from_lb (c.to_lb p false) = p := by
  obtain ⟨pad, hpad, hne, rfl⟩ := init_inv cfg c hinit
  apply from_lb_to_lb
  · exact mkConv_axes_mem cfg pad hax
  · intro j h0
    rw [mkConv_dx] at h0
    rw [mkConv_phys_min_x]
    rcases div_eq_zero_iff.mp h0 with hnum | hden
    · have h1 := (hin j).1
      have h2 := (hin j).2
      have heq : (cfg.bounding_box j).2 = (cfg.bounding_box j).1 :=
        sub_eq_zero.mp hnum
      linarith
    · exact absurd (Int.cast_eq_zero.mp hden) (hne j)

theorem C2_roundtrip_witness :
    exampleConv.from_lb (exampleConv.to_lb examplePos false) = examplePos :=
  C2_roundtrip_from_to exampleConfig exampleConv (by decide) exampleConv_init
    examplePos
    (by
      intro i
      fin_cases i
      · exact ⟨(by norm_num : (0 : ℚ) ≤ 1 / 2), (by norm_num : (1 : ℚ) / 2 ≤ 1)⟩
      · exact ⟨(by norm_num : (0 : ℚ) ≤ 1), (by norm_num : (1 : ℚ) ≤ 2)⟩
      · exact ⟨(by norm_num : (0 : ℚ) ≤ 3 / 2), (by norm_num : (3 : ℚ) / 2 ≤ 3)⟩)

theorem to_lb_from_lb (c : CoordinateConverter) (L : Fin 3 → ℤ)
    (hax : (c.axes 0, c.axes 1, c.axes 2) ∈
      ([(0, 1, 2), (0, 2, 1), (1, 0, 2), (1, 2, 0), (2, 0, 1), (2, 1, 0)] :
        List (ℕ × ℕ × ℕ)))
    (hdx : ∀ j, c.dx j ≠ 0) :
    c.to_lb (c.from_lb fun i => ((L i : ℤ) : ℚ)) true =
      fun i => ((L i : ℤ) : ℚ) := by
  simp only [List.mem_cons, List.not_mem_nil, or_false] at hax
  rcases hax with h | h | h | h | h | h <;>
    (rw [Prod.mk.injEq, Prod.mk.injEq] at h
     obtain ⟨h0, h1, h2⟩ := h
     funext k
     fin_cases k <;>
       simp [CoordinateConverter.to_lb, CoordinateConverter.to_lb_core,
         CoordinateConverter.from_lb, CoordinateConverter.axesInv, setAt,
         h0, h1, h2, mul_div_cancel_left₀, hdx])

/-- C3: for every configuration whose `axes` is a permutation of "xyz" on
which construction succeeds, with a nondegenerate bounding box (so the cell
sizes are nonzero and `to_lb`'s divisions are defined), and every 3-tuple of
integer lattice coordinates `L`, `to_lb (from_lb L, round=True)` returns `L`:
the rounding step is the identity on the recovered, already-integral
values. -/
theorem C3_roundtrip_to_from (cfg : Config) (c : CoordinateConverter)
    (hax : validAxes cfg.axes)
    (hinit : CoordinateConverter.init cfg = some c)
    (hbb : ∀ i, (cfg.bounding_box i).1 ≠ (cfg.bounding_box i).2)
    (L : Fin 3 → ℤ) :
    c.to_lb (c.from_lb fun i => ((L i : ℤ) : ℚ)) true =
      fun i => ((L i : ℤ) : ℚ) := by
  obtain ⟨pad, hpad, hne, rfl⟩ := init_inv cfg c hinit
  apply to_lb_from_lb
  · exact mkConv_axes_mem cfg pad hax
  · intro j
    rw [mkConv_dx]
    apply div_ne_zero
    · exact sub_ne_zero.mpr (Ne.symm (hbb j))
    · exact_mod_cast hne j

theorem C3_roundtrip_witness :
    exampleConv.to_lb (exampleConv.from_lb fun i => ((![6, 5, 4] i : ℤ) : ℚ))
        true =
      fun i => ((![6, 5, 4] i : ℤ) : ℚ) :=
  C3_roundtrip_to_from exampleConfig exampleConv (by decide) exampleConv_init
    (by
      intro i
      fin_cases i
      · exact (by norm_num : (0 : ℚ) ≠ 1)
      · exact (by norm_num : (0 : ℚ) ≠ 2)
      · exact (by norm_num : (0 : ℚ) ≠ 3))
    ![6, 5, 4]

theorem natSize_eq (cfg : Config) (pad : Fin 6 → ℤ) (i : Fin 3) :
    natSize cfg pad i = cfg.size (finRev i) - pad (pIdx i 0) - pad (pIdx i 1) +
      cutFwd cfg i + cutBack cfg i := by
  unfold natSize cutFwd cutBack
  cases cfg.cuts <;> simp

theorem natOffset_eq (cfg : Config) (pad : Fin 6 → ℤ) (i : Fin 3) :
    natOffset cfg pad i = -pad (pIdx i 0) + cutFwd cfg i := by
  unfold natOffset cutFwd
  cases cfg.cuts <;> simp

/-- C4: after a successful construction with padding vector `pad`, for each
natural axis `i` the cell size is
`dx[i] = (bbox width i) / (size[2-i] - pad[2i] - pad[2i+1] + cuts[i][0] +
cuts[i][1])` (cut terms zero when `cuts` is absent) and the offset is
`offset[i] = -pad[2i] + cuts[i][0]`; in particular with all-zero padding and
no cuts, `dx[i] = (bbox width i)/size[2-i]` and `offset[i] = 0`. -/
theorem C4_dx_offset_invariant (cfg : Config) (pad : Fin 6 → ℤ)
    (c : CoordinateConverter) (hpad : cfg.padding = some pad)
    (hinit : CoordinateConverter.init cfg = some c) (i : Fin 3) :
    (c.dx i = ((cfg.bounding_box i).2 - (cfg.bounding_box i).1) /
        ((cfg.size (finRev i) - pad (pIdx i 0) - pad (pIdx i 1) +
          cutFwd cfg i + cutBack cfg i : ℤ) : ℚ) ∧
      c.offset i = -pad (pIdx i 0) + cutFwd cfg i) ∧
    ((∀ j, pad j = 0) → cfg.cuts = none →
      c.dx i = ((cfg.bounding_box i).2 - (cfg.bounding_box i).1) /
          ((cfg.size (finRev i) : ℤ) : ℚ) ∧
      c.offset i = 0) := by
  obtain ⟨pad2, hpad2, hne, rfl⟩ := init_inv cfg c hinit
  rw [hpad] at hpad2
  obtain rfl : pad = pad2 := Option.some.inj hpad2
  refine ⟨⟨?_, ?_⟩, ?_⟩
  · rw [mkConv_dx, natSize_eq]
  · rw [mkConv_offset, natOffset_eq]
  · intro hz hcuts
    constructor
    · rw [mkConv_dx, natSize_eq]
      simp [cutFwd, cutBack, hcuts, hz]
    · rw [mkConv_offset, natOffset_eq]
      simp [cutFwd, hcuts, hz]

theorem C4_witness :
    exampleConfig.padding = some zeroPad ∧
      exampleConv.offset 0 = -zeroPad (pIdx 0 0) + cutFwd exampleConfig 0 :=
  ⟨rfl,
    (C4_dx_offset_invariant exampleConfig zeroPad exampleConv rfl
        exampleConv_init 0).1.2⟩

/-- A configuration identical to the example one but with the `padding` key
absent from the dictionary. -/
def noPadConfig : Config := { exampleConfig with padding := none }

/-- C5 counterexample: on a configuration without the `padding` key,
construction fails (`KeyError` on `config['padding'][2*i]`, modelled as
`none`), while the same configuration with `padding=[0,0,0,0,0,0]`
constructs successfully — so a missing `padding` key is not tolerated and
does not behave like zero padding. -/
theorem C5_counterexample :
    CoordinateConverter.init noPadConfig = none ∧
      CoordinateConverter.init exampleConfig = some exampleConv :=
  ⟨rfl, exampleConv_init⟩

/-- C5 amended: the `padding` key is required — construction fails on every
configuration in which it is absent. -/
theorem C5_padding_required (cfg : Config) (h : cfg.padding = none) :
    CoordinateConverter.init cfg = none := by
  unfold CoordinateConverter.init
  rw [h]

theorem C5_padding_required_witness :
    noPadConfig.padding = none ∧ CoordinateConverter.init noPadConfig = none :=
  ⟨rfl, C5_padding_required noPadConfig rfl⟩

/-- State of a `UnitConverter`: physical parameters (viscosity, reference
length, reference velocity, frequency) and lattice parameters, each `none`
when not yet set (Python `None`). -/
structure UnitConverter where
  phys_visc : Option ℚ
  phys_len : Option ℚ
  phys_vel : Option ℚ
  phys_freq : Option ℚ
  lb_visc : Option ℚ
  lb_len : Option ℚ
  lb_vel : Option ℚ
  deriving DecidableEq

/-- `UnitConverter.__init__(visc, length, velocity, Re, freq)`: store the
given physical parameters; when `Re` is given, derive the first missing one
of visc, length, velocity (in that elif order).  `none` models the Python
call raising (`TypeError` on `None` arithmetic, `ZeroDivisionError`). -/
def UnitConverter.init (visc length velocity Re freq : Option ℚ) :
    Option UnitConverter :=
  let base : UnitConverter := ⟨visc, length, velocity, freq, none, none, none⟩
  match Re with
  | none => some base
  | some r =>
    match visc with
    | none =>
      match length, velocity with
      | some l, some u =>
        if r = 0 then none else some { base with phys_visc := some (l * u / r) }
      | _, _ => none
    | some nu =>
      match length with
      | none =>
        match velocity with
        | some u =>
          if u = 0 then none else some { base with phys_len := some (r * nu / u) }
        | none => none
      | some l =>
        match velocity with
        | none =>
          if l = 0 then none else some { base with phys_vel := some (r * nu / l) }
        | some _ => some base

/-- The `Re` property: `phys_len * phys_vel / phys_visc`.  Fails when a
physical field is `None` (TypeError) or `phys_visc` is zero
(ZeroDivisionError). -/
def UnitConverter.Re (u : UnitConverter) : Option ℚ :=
  match u.phys_len, u.phys_vel, u.phys_visc with
  | some l, some v, some nu => if nu = 0 then none else some (l * v / nu)
  | _, _, _ => none

/-- The `Re_lb` property: `lb_len * lb_vel / lb_visc`. -/
def UnitConverter.Re_lb (u : UnitConverter) : Option ℚ :=
  match u.lb_len, u.lb_vel, u.lb_visc with
  | some l, some v, some nu => if nu = 0 then none else some (l * v / nu)
  | _, _, _ => none

/-- `_update_missing_parameters`: the three derivation branches checked in
the fixed order lb_visc, lb_len, lb_vel (each requiring the other two set),
with the stability assertion `lb_visc <= 1/6` on the first branch; any other
combination falls through with no change and no error. -/
def UnitConverter.update_missing_parameters (u : UnitConverter) :
    Option UnitConverter :=
  match u.lb_visc, u.lb_len, u.lb_vel with
  | none, some l, some v =>
    match u.Re with
    | none => none
    | some re =>
      if re = 0 then none
      else if l * v / re ≤ 1 / 6 then
        some { u with lb_visc := some (l * v / re) }
      else none
  | some nu, none, some v =>
    match u.Re with
    | none => none
    | some re =>
      if v = 0 then none else some { u with lb_len := some (re * nu / v) }
  | some nu, some l, none =>
    match u.Re with
    | none => none
    | some re =>
      if l = 0 then none else some { u with lb_vel := some (re * nu / l) }
  | _, _, _ => some u

/-- The overwrite phase of `set_lb`: each lattice field whose argument is
non-None is overwritten; the others keep their current values.  The physical
fields are untouched. -/
def UnitConverter.overwrite_lb (u : UnitConverter)
    (visc length velocity : Option ℚ) : UnitConverter :=
  { u with
    lb_visc := match visc with | some x => some x | none => u.lb_visc
    lb_len := match length with | some x => some x | none => u.lb_len
    lb_vel := match velocity with | some x => some x | none => u.lb_vel }

/-- `set_lb(visc, length, velocity)`: overwrite the supplied lattice fields,
then run `_update_missing_parameters`. -/
def UnitConverter.set_lb (u : UnitConverter)
    (visc length velocity : Option ℚ) : Option UnitConverter :=
  (u.overwrite_lb visc length velocity).update_missing_parameters

/-- The `dx` property: 0 when `lb_len` is unset, otherwise
`phys_len / lb_len`. -/
def UnitConverter.dx (u : UnitConverter) : Option ℚ :=
  match u.lb_len with
  | none => some 0
  | some l =>
    match u.phys_len with
    | none => none
    | some pl => if l = 0 then none else some (pl / l)

/-- The `dt` property: 0 when `lb_visc` is unset, otherwise
`lb_visc / phys_visc * dx**2`. -/
def UnitConverter.dt (u : UnitConverter) : Option ℚ :=
  match u.lb_visc with
  | none => some 0
  | some nu =>
    match u.phys_visc with
    | none => none
    | some pv =>
      if pv = 0 then none
      else
        match u.dx with
        | none => none
        | some d => some (nu / pv * d ^ 2)

/-- How many of the three lattice fields are currently set. -/
def UnitConverter.numSet (u : UnitConverter) : ℕ :=
  (if u.lb_visc = none then 0 else 1) + (if u.lb_len = none then 0 else 1) +
    (if u.lb_vel = none then 0 else 1)

/-- A converter with all physical parameters set to 1 and no lattice
parameters set. -/
def uPhys : UnitConverter := ⟨some 1, some 1, some 1, none, none, none, none⟩

/-- C6 counterexample: a `set_lb` call that directly supplies
`lb_visc = 1/2 > 1/6` succeeds silently (no derivation branch fires, so the
assertion is never evaluated), refuting the claim that every `set_lb` call
supplying or resolving a lattice viscosity above 1/6 fails. -/
theorem C6_counterexample :
    uPhys.set_lb (some (1 / 2)) none none =
        some { uPhys with lb_visc := some (1 / 2) } ∧
      (1 : ℚ) / 6 < 1 / 2 := by
  constructor
  · rfl
  · norm_num

/-- C6 amended: the stability bound is enforced only on the derivation
branch.  When `lb_visc` is unset and the call supplies `lb_len` and
`lb_vel` so that `lb_visc` is derived as `lb_len*lb_vel/Re` with a value
above 1/6, `set_lb` fails (AssertionError); a directly supplied
`lb_visc > 1/6` is accepted without any check. -/
theorem C6_assert_on_derived_only (u : UnitConverter) (l v re : ℚ)
    (hvisc : u.lb_visc = none) (hre : u.Re = some re) (hre0 : re ≠ 0)
    (hgt : 1 / 6 < l * v / re) :
    u.set_lb none (some l) (some v) = none := by
  show (⟨u.phys_visc, u.phys_len, u.phys_vel, u.phys_freq, u.lb_visc,
      some l, some v⟩ : UnitConverter).update_missing_parameters = none
  rw [hvisc]
  have hre2 : (⟨u.phys_visc, u.phys_len, u.phys_vel, u.phys_freq, none,
      some l, some v⟩ : UnitConverter).Re = some re := hre
  unfold UnitConverter.update_missing_parameters
  simp only [hre2]
  rw [if_neg hre0, if_neg (not_le.mpr hgt)]

theorem C6_witness : uPhys.set_lb none (some 1) (some 1) = none :=
  C6_assert_on_derived_only uPhys 1 1 1 rfl
    (by norm_num [UnitConverter.Re, uPhys]) (by norm_num) (by norm_num)

/-- C8: in `UnitConverter.__init__` with `Re` given and exactly one of
{visc, length, velocity} equal to `None`, the missing one is derived as
`visc = length*velocity/Re`, `length = Re*visc/velocity`, or
`velocity = Re*visc/length` respectively (branches checked in the fixed
elif order visc, length, velocity), and the lattice fields start unset. -/
theorem C8_init_priority (r nu L U : ℚ) :
    (r ≠ 0 → UnitConverter.init none (some L) (some U) (some r) none =
      some ⟨some (L * U / r), some L, some U, none, none, none, none⟩) ∧
    (U ≠ 0 → UnitConverter.init (some nu) none (some U) (some r) none =
      some ⟨some nu, some (r * nu / U), some U, none, none, none, none⟩) ∧
    (L ≠ 0 → UnitConverter.init (some nu) (some L) none (some r) none =
      some ⟨some nu, some L, some (r * nu / L), none, none, none, none⟩) := by
  refine ⟨fun h => ?_, fun h => ?_, fun h => ?_⟩ <;>
    simp [UnitConverter.init, h]

theorem C8_witness :
    UnitConverter.init none (some 1) (some 1) (some 1) none =
      some ⟨some (1 * 1 / 1), some 1, some 1, none, none, none, none⟩ :=
  (C8_init_priority 1 1 1 1).1 (by norm_num)

/-- C10: the `dt` property is `0` whenever `lb_visc` is unset, and also
whenever `lb_len` is unset even though `lb_visc` is set (given a set,
nonzero physical viscosity so the division is defined), because `dx` is
then `0` and `dt = lb_visc/phys_visc * dx^2`. -/
theorem C10_dt_zero (u : UnitConverter) :
    (u.lb_visc = none → u.dt = some 0) ∧
    (u.lb_len = none → ∀ pv, u.phys_visc = some pv → pv ≠ 0 →
      u.dt = some 0) := by
  constructor
  · intro h
    simp [UnitConverter.dt, h]
  · intro hlen pv hpv hpv0
    rcases hv : u.lb_visc with _ | nu
    · simp [UnitConverter.dt, hv]
    · simp [UnitConverter.dt, UnitConverter.dx, hv, hpv, hlen, hpv0]

/-- A converter with `lb_visc` set but `lb_len` unset. -/
def uNoLen : UnitConverter := ⟨some 1, some 1, some 1, none, some (1 / 10), none, none⟩

theorem C10_witness : uNoLen.dt = some 0 :=
  (C10_dt_zero uNoLen).2 rfl 1 rfl (by norm_num)

theorem update_no_derivation (w : UnitConverter)
    (h : w.numSet ≤ 1 ∨ w.numSet = 3) :
    w.update_missing_parameters = some w := by
  rcases hv : w.lb_visc with _ | nu <;> rcases hl : w.lb_len with _ | l <;>
    rcases hw : w.lb_vel with _ | v <;>
      simp_all [UnitConverter.update_missing_parameters, UnitConverter.numSet]

theorem update_changes_at_most_one (w u2 : UnitConverter)
    (h : w.update_missing_parameters = some u2) :
    (u2.lb_len = w.lb_len ∧ u2.lb_vel = w.lb_vel) ∨
    (u2.lb_visc = w.lb_visc ∧ u2.lb_vel = w.lb_vel) ∨
    (u2.lb_visc = w.lb_visc ∧ u2.lb_len = w.lb_len) := by
  obtain ⟨pv, pl, pvel, pf, olv, oll, olw⟩ := w
  rcases olv with _ | nu <;> rcases oll with _ | l <;> rcases olw with _ | v <;>
    simp only [UnitConverter.update_missing_parameters] at h
  · obtain rfl := Option.some.inj h
    exact Or.inl ⟨rfl, rfl⟩
  · obtain rfl := Option.some.inj h
    exact Or.inl ⟨rfl, rfl⟩
  · obtain rfl := Option.some.inj h
    exact Or.inl ⟨rfl, rfl⟩
  · split at h
    · exact Option.noConfusion h
    · split_ifs at h
      first
      | exact Option.noConfusion h
      | (obtain rfl := Option.some.inj h
         exact Or.inl ⟨rfl, rfl⟩)
  · obtain rfl := Option.some.inj h
    exact Or.inl ⟨rfl, rfl⟩
  · split at h
    · exact Option.noConfusion h
    · split_ifs at h
      first
      | exact Option.noConfusion h
      | (obtain rfl := Option.some.inj h
         exact Or.inr (Or.inl ⟨rfl, rfl⟩))
  · split at h
    · exact Option.noConfusion h
    · split_ifs at h
      first
      | exact Option.noConfusion h
      | (obtain rfl := Option.some.inj h
         exact Or.inr (Or.inr ⟨rfl, rfl⟩))
  · obtain rfl := Option.some.inj h
    exact Or.inl ⟨rfl, rfl⟩

/-- C9: `set_lb` overwrites exactly the lattice fields whose arguments are
non-None (physical fields and unsupplied lattice fields keep their values);
the completion step changes at most one lattice field (at most one
derivation branch fires); and when the overwritten state has fewer than two
of the three lattice fields set, or all three set, `set_lb` performs no
derivation and raises no error, returning the overwritten state. -/
theorem C9_set_lb_behavior (u : UnitConverter) (a b c : Option ℚ) :
    ((u.overwrite_lb a b c).phys_visc = u.phys_visc ∧
      (u.overwrite_lb a b c).phys_len = u.phys_len ∧
      (u.overwrite_lb a b c).phys_vel = u.phys_vel ∧
      (u.overwrite_lb a b c).phys_freq = u.phys_freq ∧
      (u.overwrite_lb a b c).lb_visc =
        (match a with | some x => some x | none => u.lb_visc) ∧
      (u.overwrite_lb a b c).lb_len =
        (match b with | some x => some x | none => u.lb_len) ∧
      (u.overwrite_lb a b c).lb_vel =
        (match c with | some x => some x | none => u.lb_vel)) ∧
    (∀ u2, u.set_lb a b c = some u2 →
      (u2.lb_len = (u.overwrite_lb a b c).lb_len ∧
        u2.lb_vel = (u.overwrite_lb a b c).lb_vel) ∨
      (u2.lb_visc = (u.overwrite_lb a b c).lb_visc ∧
        u2.lb_vel = (u.overwrite_lb a b c).lb_vel) ∨
      (u2.lb_visc = (u.overwrite_lb a b c).lb_visc ∧
        u2.lb_len = (u.overwrite_lb a b c).lb_len)) ∧
    (((u.overwrite_lb a b c).numSet ≤ 1 ∨
        (u.overwrite_lb a b c).numSet = 3) →
      u.set_lb a b c = some (u.overwrite_lb a b c)) := by
  refine ⟨⟨rfl, rfl, rfl, rfl, rfl, rfl, rfl⟩, ?_, ?_⟩
  · intro u2 h
    exact update_changes_at_most_one _ _ h
  · intro h
    exact update_no_derivation _ h

theorem C9_witness :
    uPhys.set_lb (some (1 / 10)) none none =
      some (uPhys.overwrite_lb (some (1 / 10)) none none) :=
  (C9_set_lb_behavior uPhys (some (1 / 10)) none none).2.2 (Or.inl (by decide))

/-- C7: with all three physical parameters given (nonzero viscosity), the
`Re` property equals `length*velocity/visc`; and whenever exactly two of
the three lattice fields are set through a `set_lb` call and the third is
derived by the completion step (all quantities nonzero), afterwards `Re_lb`
equals `Re` exactly. -/
theorem C7_reynolds_invariant (nu L U : ℚ) (hnu : nu ≠ 0) :
    (∀ u : UnitConverter,
      UnitConverter.init (some nu) (some L) (some U) none none = some u →
      u.Re = some (L * U / nu)) ∧
    (∀ u u2 : UnitConverter, ∀ lv ll lw : ℚ,
      u.phys_visc = some nu → u.phys_len = some L →
      u.phys_vel = some U → L ≠ 0 → U ≠ 0 → lv ≠ 0 → ll ≠ 0 → lw ≠ 0 →
      ((u.lb_visc = none ∧ u.set_lb none (some ll) (some lw) = some u2) ∨
       (u.lb_len = none ∧ u.set_lb (some lv) none (some lw) = some u2) ∨
       (u.lb_vel = none ∧ u.set_lb (some lv) (some ll) none = some u2)) →
      u2.Re_lb = u2.Re ∧ u2.Re = some (L * U / nu)) := by
  constructor
  · intro u h
    obtain rfl : (⟨some nu, some L, some U, none, none, none, none⟩ :
        UnitConverter) = u := Option.some.inj h
    simp [UnitConverter.Re, hnu]
  · intro u u2 lv ll lw hpv hpl hpvel hL hU hlv hll hlw hcase
    have hre0 : L * U / nu ≠ 0 := div_ne_zero (mul_ne_zero hL hU) hnu
    rcases hcase with ⟨hv, h⟩ | ⟨hl, h⟩ | ⟨hw, h⟩
    · replace h : (⟨u.phys_visc, u.phys_len, u.phys_vel, u.phys_freq,
          u.lb_visc, some ll, some lw⟩ :
          UnitConverter).update_missing_parameters = some u2 := h
      rw [hv, hpv, hpl, hpvel] at h
      simp only [UnitConverter.update_missing_parameters, UnitConverter.Re,
        hnu, if_false, ite_false, if_neg hnu] at h
      rw [if_neg hre0] at h
      split_ifs at h with hb
      · obtain rfl := Option.some.inj h
        have hd : ll * lw / (L * U / nu) ≠ 0 :=
          div_ne_zero (mul_ne_zero hll hlw) hre0
        refine ⟨?_, by simp [UnitConverter.Re, hnu]⟩
        simp only [UnitConverter.Re_lb, UnitConverter.Re]
        rw [if_neg hd, if_neg hnu]
        congr 1
        rw [div_div_eq_mul_div, mul_div_cancel_left₀ _ (mul_ne_zero hll hlw)]
    · replace h : (⟨u.phys_visc, u.phys_len, u.phys_vel, u.phys_freq,
          some lv, u.lb_len, some lw⟩ :
          UnitConverter).update_missing_parameters = some u2 := h
      rw [hl, hpv, hpl, hpvel] at h
      simp only [UnitConverter.update_missing_parameters, UnitConverter.Re,
        hnu, if_false, ite_false, if_neg hnu] at h
      rw [if_neg hlw] at h
      obtain rfl := Option.some.inj h
      refine ⟨?_, by simp [UnitConverter.Re, hnu]⟩
      simp only [UnitConverter.Re_lb, UnitConverter.Re]
      rw [if_neg hlv, if_neg hnu]
      congr 1
      rw [div_mul_cancel₀ _ hlw, mul_div_cancel_right₀ _ hlv]
    · replace h : (⟨u.phys_visc, u.phys_len, u.phys_vel, u.phys_freq,
          some lv, some ll, u.lb_vel⟩ :
          UnitConverter).update_missing_parameters = some u2 := h
      rw [hw, hpv, hpl, hpvel] at h
      simp only [UnitConverter.update_missing_parameters, UnitConverter.Re,
        hnu, if_false, ite_false, if_neg hnu] at h
      rw [if_neg hll] at h
      obtain rfl := Option.some.inj h
      refine ⟨?_, by simp [UnitConverter.Re, hnu]⟩
      simp only [UnitConverter.Re_lb, UnitConverter.Re]
      rw [if_neg hlv, if_neg hnu]
      congr 1
      rw [mul_comm ll _, div_mul_cancel₀ _ hll, mul_div_cancel_right₀ _ hlv]

/-- The state obtained from `uPhys` by setting `lb_len = lb_vel = 1/10` and
letting the completion step derive `lb_visc = (1/10)*(1/10)/Re = 1/100`. -/
def uDerived : UnitConverter :=
  ⟨some 1, some 1, some 1, none, some (1 / 100), some (1 / 10), some (1 / 10)⟩

theorem uDerived_eq :
    uPhys.set_lb none (some (1 / 10)) (some (1 / 10)) = some uDerived := by
  show (⟨some 1, some 1, some 1, none, none, some (1 / 10), some (1 / 10)⟩ :
      UnitConverter).update_missing_parameters = some uDerived
  norm_num [UnitConverter.update_missing_parameters, UnitConverter.Re,
    uDerived]

theorem C7_witness :
    uDerived.Re_lb = uDerived.Re ∧ uDerived.Re = some (1 * 1 / 1) :=
  (C7_reynolds_invariant 1 1 1 (by norm_num)).2 uPhys uDerived 1 (1 / 10)
    (1 / 10) rfl rfl rfl (by norm_num) (by norm_num) (by norm_num)
    (by norm_num) (by norm_num) (Or.inl ⟨rfl, uDerived_eq⟩)

end Sailfish
